import Mathlib

/-!
Verification development for the fastapi-logging-middleware repository.

The Python source is shallowly embedded: byte strings are modelled as Lean
`String`s (the repository only ever handles textual bodies), Starlette
`QueryParams` and `Headers`/`MutableHeaders` are modelled as ordered lists of
key/value pairs together with the exact lookup/update semantics of the
Starlette data structures the code calls into, and Python dicts are modelled
as insertion-ordered association lists.
-/

set_option autoImplicit false

namespace FLM

/-- A Starlette `QueryParams` object: an ordered multimap of decoded
query parameters, `params.multi_items()` being exactly this list. -/
abbrev ParamList := List (String × String)

/-- A Starlette `Headers`/`MutableHeaders` object: the decoded `raw` list of
header name/value pairs, in order.  Starlette stores names verbatim; all of
its constructors (and the ASGI spec) lowercase them. -/
abbrev HeaderList := List (String × String)

/-- `BaseInfo.Config.masked_value` in http_exporter.py. -/
def maskedValue : String := "MASKED"

/-- `DEFAULT_MASKED_NAMES` in http_exporter.py (frozenset iteration order is
modelled by the tuple order it was built from). -/
def defaultMaskedNames : List String := ["authorization", "token"]

/-- Python `str()` of a `bytes` object whose contents are printable ASCII
without apostrophes or backslashes: a `b` followed by the contents wrapped in
single quotation marks, which is what `str(await request.body())` and
`str(response.body)` produce in the source. -/
def pyBytesStr (s : String) : String :=
  "b\x27" ++ s ++ "\x27"

/-- Python `str.lower()` on one character, restricted to ASCII (every header
and parameter name the repository handles is ASCII). -/
def charLower (c : Char) : Char :=
  if 65 ≤ c.toNat ∧ c.toNat ≤ 90 then Char.ofNat (c.toNat + 32) else c

/-- Python `str.lower()`, restricted to ASCII strings. -/
def strLower (s : String) : String :=
  String.mk (s.data.map charLower)

/-- Starlette `Headers.__getitem__`/`get`: lowercase the lookup key and return
the value of the first entry whose stored key equals it verbatim
(`headersGetRaw` receives the already-lowercased key). -/
def headersGetRaw (key : String) : HeaderList → Option String
  | [] => none
  | (k, v) :: rest => if k = key then some v else headersGetRaw key rest

/-- Starlette `Headers.get(name)`. -/
def headersGet (hs : HeaderList) (name : String) : Option String :=
  headersGetRaw (strLower name) hs

/-- Drop every entry with the given stored key (the deletion loop inside
`MutableHeaders.__setitem__`). -/
def removeKey (key : String) : HeaderList → HeaderList
  | [] => []
  | (k, v) :: rest =>
      if k = key then removeKey key rest else (k, v) :: removeKey key rest

/-- Starlette `MutableHeaders.__setitem__` with the lookup key already
lowercased: replace the first entry whose stored key matches (storing the
lowercased key), delete every later entry with that key, and append the pair
when no entry matches. -/
def headersSetRaw (key value : String) : HeaderList → HeaderList
  | [] => [(key, value)]
  | (k, v) :: rest =>
      if k = key then (key, value) :: removeKey key rest
      else (k, v) :: headersSetRaw key value rest

/-- Starlette `MutableHeaders.__setitem__`. -/
def headersSet (hs : HeaderList) (name value : String) : HeaderList :=
  headersSetRaw (strLower name) value hs

/-- `BaseInfo._mask_private_params`: walk `params.multi_items()` in order,
replacing the value by the sentinel whenever the lowercased key is (verbatim)
an element of the masked-name set. -/
def maskPrivateParams : ParamList → List String → ParamList
  | [], _ => []
  | (key, value) :: rest, maskedNames =>
      let v := if strLower key ∈ maskedNames then maskedValue else value
      (key, v) :: maskPrivateParams rest maskedNames

/-- One iteration of the loop in `BaseInfo._mask_private_headers`:
`if headers.get(name) is not None: headers[name] = masked_value`. -/
def maskHeaderStep (hs : HeaderList) (name : String) : HeaderList :=
  if (headersGet hs name).isSome then headersSet hs name maskedValue else hs

/-- `BaseInfo._mask_private_headers`: make a mutable copy and run
`maskHeaderStep` for each name in the masked-name set (set iteration order is
modelled by a list; the theorems quantify over every order). -/
def maskPrivateHeaders (headers : HeaderList) (maskedNames : List String) : HeaderList :=
  maskedNames.foldl maskHeaderStep headers

example :
    maskPrivateParams
      [("param_name1", "param_value1"), ("authorization", "some_authorization"),
        ("token", "some_token"), ("custom_auth_param", "x")]
      ["authorization", "token", "custom_auth_param"]
      = [("param_name1", "param_value1"), ("authorization", "MASKED"),
          ("token", "MASKED"), ("custom_auth_param", "MASKED")] := by decide

example :
    maskPrivateHeaders
      [("header-name1", "header_value1"), ("authorization", "some authorization"),
        ("token", "some token")]
      ["authorization", "token"]
      = [("header-name1", "header_value1"), ("authorization", "MASKED"),
          ("token", "MASKED")] := by decide

example :
    maskPrivateHeaders [("token", "a"), ("token", "b")] ["token"]
      = [("token", "MASKED")] := by decide

example :
    maskPrivateParams [("token", "secret")] ["Token"] = [("token", "secret")] := by decide

/-! ## Field normalization (the `Config.dumpers` converters in http_exporter.py) -/

/-- One hex digit, uppercase, as produced by urllib percent-encoding. -/
def hexDigit (n : Nat) : Char :=
  if n < 10 then Char.ofNat (48 + n) else Char.ofNat (55 + n)

/-- Percent-encode one byte as urllib does. -/
def percentByte (b : Nat) : String :=
  String.mk [Char.ofNat 37, hexDigit (b / 16), hexDigit (b % 16)]

/-- The characters `urllib.parse.quote_plus` never encodes: ASCII letters,
digits, underscore, dot, hyphen, tilde. -/
def quoteSafeChar (c : Char) : Bool :=
  (65 ≤ c.toNat && c.toNat ≤ 90) || (97 ≤ c.toNat && c.toNat ≤ 122) ||
    (48 ≤ c.toNat && c.toNat ≤ 57) ||
    c.toNat = 95 || c.toNat = 46 || c.toNat = 45 || c.toNat = 126

/-- `urllib.parse.quote_plus` on one character: a space becomes a plus sign,
safe characters pass through, everything else is percent-encoded per UTF-8
byte. -/
def quotePlusChar (c : Char) : String :=
  if c.toNat = 32 then "+"
  else if quoteSafeChar c then String.mk [c]
  else String.join (((String.mk [c]).toUTF8.toList).map (fun b => percentByte b.toNat))

/-- `urllib.parse.quote_plus`. -/
def quotePlus (s : String) : String :=
  String.join (s.data.map quotePlusChar)

/-- `str(QueryParams)`, i.e. `urllib.parse.urlencode(self._list)`: ampersand-
joined `key=value` pairs in insertion order, each side quote-plus encoded.
This is the `convert_to_str` dumper applied to a `QueryParams` value. -/
def convertQueryParamsToStr (ps : ParamList) : String :=
  String.intercalate "&" (ps.map (fun e => quotePlus e.1 ++ "=" ++ quotePlus e.2))

/-! ## The capture model (`BaseInfo` and its dataclasses) -/

/-- A snapshot of the entries captured for a file uploaded through a
multipart form (`\x7bfile_name, headers, size\x7d` in the tests and spec). -/
inductive FormEntryOut where
  | str (s : String)
  | fileInfo (fileName : String) (headers : HeaderList) (size : Nat)

/-- A Python value as it occurs inside the dict built by `BaseInfo.as_dict`:
`None`, strings, ints, (insertion-ordered) dicts, the Starlette container
objects before a dumper converts them, a `starlette.Address` named tuple, and
the captured form list.  The `URL` dumper entry of `Config.dumpers` has no
constructor here because no dataclass field ever holds a `URL` object
(`RequestInfo.path` is already a string). -/
inductive Value where
  | null
  | str (s : String)
  | nat (n : Nat)
  | dict (entries : List (String × Value))
  | params (ps : ParamList)
  | headers (hs : HeaderList)
  | address (host : String) (port : Nat)
  | form (entries : List (String × FormEntryOut))

/-- Python `value is not None`, negated. -/
def Value.isNull : Value → Bool
  | .null => true
  | _ => false

/-- `dict.__setitem__` for an insertion-ordered dict modelled as an
association list: an existing key keeps its position and gets the new value,
a new key is appended. -/
def dictInsert (d : List (String × Value)) (k : String) (v : Value) : List (String × Value) :=
  if (d.map Prod.fst).contains k then
    d.map (fun e => if e.1 = k then (k, v) else e)
  else d ++ [(k, v)]

/-- `convert_headers_to_dict`: `dict(headers.items())` — duplicate header
names collapse with the last value winning, at the position of the first
occurrence. -/
def convertHeadersToDict (hs : HeaderList) : List (String × Value) :=
  hs.foldl (fun d e => dictInsert d e.1 (Value.str e.2)) []

/-- `BaseInfo._mask_private_data`: only `QueryParams` and `Headers` values are
masked, every other value is returned unchanged. -/
def maskPrivateData (maskedNames : List String) : Value → Value
  | .params ps => .params (maskPrivateParams ps maskedNames)
  | .headers hs => .headers (maskPrivateHeaders hs maskedNames)
  | v => v

/-- The `Config.dumpers` dispatch in `as_dict`: the first dumper whose type
matches the value converts it (`QueryParams` to its string form, `Headers` to
a plain dict, `Address` to a host/port dict); `none` when no dumper type
matches. -/
def applyDumper : Value → Option Value
  | .params ps => some (.str (convertQueryParamsToStr ps))
  | .headers hs => some (.dict (convertHeadersToDict hs))
  | .address host port => some (.dict [("host", Value.str host), ("port", Value.nat port)])
  | _ => none

/-- The per-entry body of the loop in `BaseInfo.as_dict`: mask the value if
requested, then write back the dumped value if some dumper type matches;
when none matches the dict keeps the value it already held (the pre-masking
one — indistinguishable, since masking only changes values a dumper
matches). -/
def processEntryValue (isMaskPrivateData : Bool) (maskedNames : List String) (v : Value) : Value :=
  let w := if isMaskPrivateData then maskPrivateData maskedNames v else v
  match applyDumper w with
  | some u => u
  | none => v

/-- `BaseInfo.as_dict` applied to the `dataclasses.asdict` field list: drop
`None` values when `exclude_none`, then process every entry in place (the
Python loop mutates values only, so key order is that of the field list). -/
def asDictCore (isMaskPrivateData : Bool) (maskedNames : List String) (excludeNone : Bool)
    (fields : List (String × Value)) : List (String × Value) :=
  let data := if excludeNone then fields.filter (fun e => !e.2.isNull) else fields
  data.map (fun e => (e.1, processEntryValue isMaskPrivateData maskedNames e.2))

/-- The `RequestInfo` dataclass.  Field declaration order is the order
`dataclasses.asdict` emits.  The `form` field is not present in
src/fastapi_logging_middleware/http_exporter.py; it is modelled from the
spec (see `RequestInfo.fromStarletteRequest`) because handlers.py and the
tests call the capture with `include_form` and read a `form` key. -/
structure RequestInfo where
  method : String
  path : String
  query_params : ParamList
  headers : HeaderList
  client_address : Option (String × Nat) := none
  body : Option String := none
  form : Option (List (String × FormEntryOut)) := none

/-- The `EndpointInfo` dataclass. -/
structure EndpointInfo where
  method : String
  path : String

/-- The `ResponseInfo` dataclass, field order as declared. -/
structure ResponseInfo where
  status_code : Nat
  headers : HeaderList
  request : Option EndpointInfo := none
  body : Option String := none

def optStrVal : Option String → Value
  | none => .null
  | some s => .str s

def optAddrVal : Option (String × Nat) → Value
  | none => .null
  | some (host, port) => .address host port

/-- `dataclasses.asdict` recurses into the nested `EndpointInfo` dataclass,
turning it into a plain method/path dict before masking and dumping run. -/
def optEndpointVal : Option EndpointInfo → Value
  | none => .null
  | some e => .dict [("method", .str e.method), ("path", .str e.path)]

def optFormVal : Option (List (String × FormEntryOut)) → Value
  | none => .null
  | some entries => .form entries

/-- `dataclasses.asdict(self)` for a `RequestInfo`: the fields in declaration
order, the `type` tag (a `dataclasses.field` with default `"Request"`,
`init=False`, declared first) leading. -/
def RequestInfo.asdictFields (r : RequestInfo) : List (String × Value) :=
  [("type", Value.str "Request"),
    ("method", Value.str r.method),
    ("path", Value.str r.path),
    ("query_params", Value.params r.query_params),
    ("headers", Value.headers r.headers),
    ("client_address", optAddrVal r.client_address),
    ("body", optStrVal r.body),
    ("form", optFormVal r.form)]

/-- `dataclasses.asdict(self)` for a `ResponseInfo`. -/
def ResponseInfo.asdictFields (s : ResponseInfo) : List (String × Value) :=
  [("type", Value.str "Response"),
    ("status_code", Value.nat s.status_code),
    ("headers", Value.headers s.headers),
    ("request", optEndpointVal s.request),
    ("body", optStrVal s.body)]

/-- `RequestInfo.as_dict`. -/
def RequestInfo.asDict (r : RequestInfo) (isMaskPrivateData : Bool)
    (maskedNames : List String) (excludeNone : Bool) : List (String × Value) :=
  asDictCore isMaskPrivateData maskedNames excludeNone r.asdictFields

/-- `ResponseInfo.as_dict`. -/
def ResponseInfo.asDict (s : ResponseInfo) (isMaskPrivateData : Bool)
    (maskedNames : List String) (excludeNone : Bool) : List (String × Value) :=
  asDictCore isMaskPrivateData maskedNames excludeNone s.asdictFields

/-! ## Building a capture from a live request -/

/-- One field of a decoded multipart form: either a text field or an uploaded
file (with its filename, part headers and content size). -/
inductive FormValue where
  | text (value : String)
  | file (fileName : String) (headers : HeaderList) (size : Nat)

/-- A decoded multipart form: (field name, value) pairs in submission order,
repeated names allowed. -/
abbrev FormData := List (String × FormValue)

/-- The observable parts of a `starlette.Request` that
`RequestInfo.from_starlette_request` reads: method, `url.path`, query
parameters, headers, `request.client`, the raw body bytes, and the decoded
multipart form when the request carries one. -/
structure StarRequest where
  method : String
  urlPath : String
  queryParams : ParamList
  headers : HeaderList
  client : Option (String × Nat)
  bodyBytes : String
  form : Option FormData

/-- Modelled from the spec: how one captured form field is serialized —
"each text field becomes a `(name, string_value)` pair and each
uploaded-file field becomes `(name, \x7bfile_name, headers, size\x7d)`".  The
code for this is missing from src/fastapi_logging_middleware/http_exporter.py;
only its callers (handlers.py) and the tests are in the sources. -/
def convertFormField : FormValue → FormEntryOut
  | .text value => .str value
  | .file fileName headers size => .fileInfo fileName headers size

/-- Modelled from the spec: the captured form listing every field in
submission order, repeated field names included. -/
def captureForm (fd : FormData) : List (String × FormEntryOut) :=
  fd.map (fun e => (e.1, convertFormField e.2))

/-- `RequestInfo.from_starlette_request`.  The `include_body` path is exactly
the source (`body = str(await request.body())` when requested); the
`include_form` path is modelled from the spec, which says the capture
"optionally also reads and buffers the body (or decoded multipart form)" —
when the form is captured it takes the place of the body, as the repository
tests require. -/
def RequestInfo.fromStarletteRequest (req : StarRequest)
    (includeBody includeForm : Bool) : RequestInfo :=
  let formCaptured : Option (List (String × FormEntryOut)) :=
    if includeForm then req.form.map captureForm else none
  { method := req.method
    path := req.urlPath
    query_params := req.queryParams
    headers := req.headers
    client_address := req.client
    body := if includeBody && formCaptured.isNone then some (pyBytesStr req.bodyBytes) else none
    form := formCaptured }

/-! ## The body reader (`_get_response_body`) -/

/-- The response shapes `_get_response_body` distinguishes with `isinstance`:
a `StreamingResponse` (its `body_iterator` modelled as the list of byte
chunks it will yield), the fully buffered `HTMLResponse`, `PlainTextResponse`
and `JSONResponse`, and any other `Response` (e.g. `FileResponse`), which is
not captured. -/
inductive StarResponse where
  | streaming (chunks : List String)
  | html (body : String)
  | plainText (body : String)
  | json (body : String)
  | basic (body : String)

/-- The list comprehension `[chunk async for chunk in response.body_iterator]`:
drain the iterator completely, collecting every chunk in order. -/
def consumeIterator : List String → List String
  | [] => []
  | c :: rest => c :: consumeIterator rest

/-- The byte sequence the response will deliver downstream. -/
def deliveredBytes : StarResponse → String
  | .streaming chunks => String.join chunks
  | .html body => body
  | .plainText body => body
  | .json body => body
  | .basic body => body

/-- `_get_response_body`: returns the captured body (if any) together with
the response as it continues downstream.  For a streaming response the
iterator is drained and then replaced with
`iterate_in_threadpool(iter(response_body_chunks))`, a fresh iterator over
the consumed chunk list; buffered responses are read without consumption;
other responses yield no body.  The returned body is `str()` of the byte
string, as in the source. -/
def getResponseBody : StarResponse → Option String × StarResponse
  | .streaming chunks =>
      let consumed := consumeIterator chunks
      (some (pyBytesStr (String.join consumed)), .streaming consumed)
  | .html body => (some (pyBytesStr body), .html body)
  | .plainText body => (some (pyBytesStr body), .plainText body)
  | .json body => (some (pyBytesStr body), .json body)
  | .basic body => (none, .basic body)

/-! ## The dispatch pipeline (middleware.py, handlers.py, dependencies.py) -/

/-- A configured sink, reduced to the observable outcome of its two capture
calls: `reqOk` is whether `save_request_to_storage` returns normally,
`respOk` whether `save_response_to_storage` does. -/
structure Handler where
  reqOk : Bool
  respOk : Bool
deriving DecidableEq

inductive Phase where
  | request
  | response
deriving DecidableEq

/-- What the HTTP client ultimately receives. -/
inductive ClientResult where
  | ok (resp : String)
  | serverError
deriving DecidableEq

/-- The request phase: `LoggingMiddleware.register` installs every handler as
a FastAPI route dependency (`dependencies.add_dependency`), and FastAPI runs
route dependencies sequentially before the endpoint, aborting the request
when one raises.  Returns the (handler index, phase) invocation events and
whether the phase completed. -/
def runRequestPhaseAux : Nat → List Handler → List (Nat × Phase) × Bool
  | _, [] => ([], true)
  | i, h :: rest =>
      if h.reqOk then
        let (evs, ok) := runRequestPhaseAux (i + 1) rest
        ((i, Phase.request) :: evs, ok)
      else ([(i, Phase.request)], false)

/-- `LoggingMiddleware._handle_response`:
`asyncio.gather(*tasks, return_exceptions=True)` starts
`save_response_to_storage` for every handler and waits for all of them;
exceptions are returned inside the collected result list instead of
propagating, and the list is discarded.  Returns the invocation events and
the collected per-handler outcomes. -/
def handleResponse (hs : List Handler) : List (Nat × Phase) × List Bool :=
  ((List.range hs.length).map (fun i => (i, Phase.response)),
    hs.map (fun h => h.respOk))

/-- One full request through the registered pipeline: the route dependencies
run first; if they all return, the endpoint produces its response, the
middleware runs `_handle_response` (whose collected failures are suppressed)
and returns the endpoint response unchanged; if a dependency raises, the
framework aborts with an error before the endpoint runs and the middleware
never captures a response. -/
def runPipeline (hs : List Handler) (endpointResponse : String) :
    ClientResult × List (Nat × Phase) :=
  let (reqEvents, ok) := runRequestPhaseAux 0 hs
  if ok then
    (ClientResult.ok endpointResponse, reqEvents ++ (handleResponse hs).1)
  else
    (ClientResult.serverError, reqEvents)

/-- A handler as `LoggingMiddleware.__init__` sees it: either the
default-configured `LoggingHandler()` it builds itself, or a caller-supplied
handler. -/
inductive HandlerSpec where
  | defaultLogging
  | custom (id : Nat)
deriving DecidableEq

/-- `LoggingMiddleware.__init__`: `if not handlers: handlers =
(LoggingHandler(),)` — both `None` and an empty sequence are falsy and are
replaced by the one default logging handler; any non-empty sequence is kept
as supplied. -/
def loggingMiddlewareInit : Option (List HandlerSpec) → List HandlerSpec
  | none => [HandlerSpec.defaultLogging]
  | some [] => [HandlerSpec.defaultLogging]
  | some hs => hs

/-! ## Lemmas about the header container operations -/

/-- `maskHeaderStep` with the name already lowercased (proof-layer helper). -/
def maskStepRaw (key : String) (hs : HeaderList) : HeaderList :=
  if (headersGetRaw key hs).isSome then headersSetRaw key maskedValue hs else hs

theorem maskHeaderStep_eq_raw (hs : HeaderList) (name : String) :
    maskHeaderStep hs name = maskStepRaw (strLower name) hs := rfl

theorem maskPrivateHeaders_eq_raw (hs : HeaderList) (maskedNames : List String) :
    maskPrivateHeaders hs maskedNames
      = (maskedNames.map strLower).foldl (fun h k => maskStepRaw k h) hs := by
  unfold maskPrivateHeaders
  rw [List.foldl_map]
  rfl

theorem getRaw_removeKey_ne {k k2 : String} (h : k ≠ k2) (hs : HeaderList) :
    headersGetRaw k (removeKey k2 hs) = headersGetRaw k hs := by
  have hsymm : ¬k2 = k := fun hh => h hh.symm
  induction hs with
  | nil => rfl
  | cons e rest ih =>
      obtain ⟨a, b⟩ := e
      by_cases ha : a = k2
      · subst ha
        simp [removeKey, headersGetRaw, hsymm, ih]
      · by_cases hak : a = k <;> simp [removeKey, headersGetRaw, ha, hak, h, ih]

theorem removeKey_removeKey (k k2 : String) (hs : HeaderList) :
    removeKey k (removeKey k2 hs) = removeKey k2 (removeKey k hs) := by
  by_cases hkk : k = k2
  · subst hkk
    rfl
  · have hsymm : ¬k2 = k := fun hh => hkk hh.symm
    induction hs with
    | nil => rfl
    | cons e rest ih =>
        obtain ⟨a, b⟩ := e
        by_cases h1 : a = k
        · subst h1
          simp [removeKey, hkk, ih]
        · by_cases h2 : a = k2
          · subst h2
            simp [removeKey, hsymm, ih]
          · simp [removeKey, h1, h2, ih]

theorem removeKey_self (k : String) (hs : HeaderList) :
    removeKey k (removeKey k hs) = removeKey k hs := by
  induction hs with
  | nil => rfl
  | cons e rest ih =>
      obtain ⟨a, b⟩ := e
      by_cases h : a = k <;> simp [removeKey, h, ih]

theorem getRaw_setRaw (k v : String) (hs : HeaderList) :
    headersGetRaw k (headersSetRaw k v hs) = some v := by
  induction hs with
  | nil => simp [headersSetRaw, headersGetRaw]
  | cons e rest ih =>
      obtain ⟨a, b⟩ := e
      by_cases h : a = k <;> simp [headersSetRaw, headersGetRaw, h, ih]

theorem getRaw_setRaw_ne {k k2 : String} (h : k ≠ k2) (v : String) (hs : HeaderList) :
    headersGetRaw k (headersSetRaw k2 v hs) = headersGetRaw k hs := by
  have hsymm : ¬k2 = k := fun hh => h hh.symm
  induction hs with
  | nil => simp [headersSetRaw, headersGetRaw, hsymm]
  | cons e rest ih =>
      obtain ⟨a, b⟩ := e
      by_cases ha : a = k2
      · subst ha
        simp [headersSetRaw, headersGetRaw, hsymm, getRaw_removeKey_ne h]
      · by_cases hak : a = k <;> simp [headersSetRaw, headersGetRaw, ha, hak, h, ih]

theorem removeKey_setRaw_ne {k k2 : String} (h : k ≠ k2) (v : String) (hs : HeaderList) :
    removeKey k (headersSetRaw k2 v hs) = headersSetRaw k2 v (removeKey k hs) := by
  have hsymm : ¬k2 = k := fun hh => h hh.symm
  induction hs with
  | nil => simp [headersSetRaw, removeKey, hsymm]
  | cons e rest ih =>
      obtain ⟨a, b⟩ := e
      by_cases ha : a = k2
      · subst ha
        simp [headersSetRaw, removeKey, hsymm, removeKey_removeKey]
      · by_cases hak : a = k
        · subst hak
          simp [headersSetRaw, removeKey, ha, h, ih]
        · simp [headersSetRaw, removeKey, ha, hak, ih]

theorem setRaw_setRaw (k v : String) (hs : HeaderList) :
    headersSetRaw k v (headersSetRaw k v hs) = headersSetRaw k v hs := by
  induction hs with
  | nil => simp [headersSetRaw, removeKey]
  | cons e rest ih =>
      obtain ⟨a, b⟩ := e
      by_cases h : a = k
      · simp [headersSetRaw, h, removeKey_self]
      · simp [headersSetRaw, h, ih]

theorem setRaw_comm {k k2 : String} (hne : k ≠ k2) (v w : String) (hs : HeaderList)
    (h1 : (headersGetRaw k hs).isSome) (h2 : (headersGetRaw k2 hs).isSome) :
    headersSetRaw k v (headersSetRaw k2 w hs) = headersSetRaw k2 w (headersSetRaw k v hs) := by
  induction hs with
  | nil => simp [headersGetRaw] at h1
  | cons e rest ih =>
      obtain ⟨a, b⟩ := e
      by_cases ha : a = k
      · subst ha
        simp [headersSetRaw, hne, Ne.symm hne, removeKey_setRaw_ne hne]
      · by_cases ha2 : a = k2
        · subst ha2
          simp [headersSetRaw, hne, Ne.symm hne, removeKey_setRaw_ne (Ne.symm hne)]
        · simp only [headersGetRaw, ha, ha2, if_false] at h1 h2
          simp [headersSetRaw, ha, ha2, ih h1 h2]

/-! ## Idempotence machinery for header masking -/

theorem maskStepRaw_idem (k : String) (hs : HeaderList) :
    maskStepRaw k (maskStepRaw k hs) = maskStepRaw k hs := by
  by_cases h : (headersGetRaw k hs).isSome
  · simp [maskStepRaw, h, getRaw_setRaw, setRaw_setRaw]
  · simp [maskStepRaw, h]

theorem maskStepRaw_stable_of_stable {k k2 : String} {hs : HeaderList}
    (h : maskStepRaw k hs = hs) :
    maskStepRaw k (maskStepRaw k2 hs) = maskStepRaw k2 hs := by
  by_cases hkk : k = k2
  · subst hkk
    rw [maskStepRaw_idem]
  · by_cases h2 : (headersGetRaw k2 hs).isSome
    · have hstep2 : maskStepRaw k2 hs = headersSetRaw k2 maskedValue hs := by
        rw [maskStepRaw, if_pos h2]
      rw [hstep2]
      by_cases h1 : (headersGetRaw k hs).isSome
      · have hset : headersSetRaw k maskedValue hs = hs := by
          have hh := h
          rw [maskStepRaw, if_pos h1] at hh
          exact hh
        rw [maskStepRaw, getRaw_setRaw_ne hkk, if_pos h1]
        rw [setRaw_comm hkk maskedValue maskedValue hs h1 h2, hset]
      · rw [maskStepRaw, getRaw_setRaw_ne hkk, if_neg h1]
    · have hstep2 : maskStepRaw k2 hs = hs := by
        rw [maskStepRaw, if_neg h2]
      rw [hstep2, h]

theorem maskStepRaw_stable_foldl {k : String} {hs : HeaderList}
    (h : maskStepRaw k hs = hs) (ks : List String) :
    maskStepRaw k (ks.foldl (fun acc key => maskStepRaw key acc) hs)
      = ks.foldl (fun acc key => maskStepRaw key acc) hs := by
  induction ks generalizing hs with
  | nil => simpa using h
  | cons k2 rest ih =>
      simpa using ih (maskStepRaw_stable_of_stable h)

theorem maskStepRaw_all_stable (ks : List String) (hs : HeaderList) :
    ∀ k ∈ ks, maskStepRaw k (ks.foldl (fun acc key => maskStepRaw key acc) hs)
      = ks.foldl (fun acc key => maskStepRaw key acc) hs := by
  induction ks generalizing hs with
  | nil => intro k hk; cases hk
  | cons k2 rest ih =>
      intro k hk
      rcases List.mem_cons.mp hk with hk | hk
      · subst hk
        simpa using maskStepRaw_stable_foldl (maskStepRaw_idem k hs) rest
      · simpa using ih (maskStepRaw k2 hs) k hk

theorem foldl_maskStepRaw_of_all_stable {ks : List String} {hs : HeaderList}
    (h : ∀ k ∈ ks, maskStepRaw k hs = hs) :
    ks.foldl (fun acc key => maskStepRaw key acc) hs = hs := by
  induction ks with
  | nil => rfl
  | cons k2 rest ih =>
      have h2 : maskStepRaw k2 hs = hs := h k2 (List.mem_cons_self k2 rest)
      simp only [List.foldl_cons, h2]
      exact ih (fun k hk => h k (List.mem_cons_of_mem k2 hk))

/-! ## Characterization of masking on duplicate-free headers -/

theorem getRaw_none_forall {k : String} {hs : HeaderList}
    (h : headersGetRaw k hs = none) : ∀ e ∈ hs, e.1 ≠ k := by
  induction hs with
  | nil => intro e he; cases he
  | cons e2 rest ih =>
      obtain ⟨a, b⟩ := e2
      intro e he
      by_cases ha : a = k
      · rw [headersGetRaw, if_pos ha] at h
        cases h
      · rw [headersGetRaw, if_neg ha] at h
        rcases List.mem_cons.mp he with he | he
        · subst he; exact ha
        · exact ih h e he

theorem removeKey_id_of_forall_ne {k : String} {hs : HeaderList}
    (h : ∀ e ∈ hs, e.1 ≠ k) : removeKey k hs = hs := by
  induction hs with
  | nil => rfl
  | cons e rest ih =>
      obtain ⟨a, b⟩ := e
      have ha : a ≠ k := h (a, b) (List.mem_cons_self _ _)
      rw [removeKey, if_neg ha, ih (fun e he => h e (List.mem_cons_of_mem _ he))]

theorem map_mask_id_of_forall_ne {k : String} {hs : HeaderList}
    (h : ∀ e ∈ hs, e.1 ≠ k) :
    hs.map (fun e => if e.1 = k then (e.1, maskedValue) else e) = hs := by
  induction hs with
  | nil => rfl
  | cons e rest ih =>
      have ha := h e (List.mem_cons_self _ _)
      simp only [List.map_cons, if_neg ha]
      rw [ih (fun e2 he => h e2 (List.mem_cons_of_mem _ he))]

theorem maskStepRaw_eq_map_of_nodup {hs : HeaderList}
    (hnd : (hs.map Prod.fst).Nodup) (k : String) :
    maskStepRaw k hs = hs.map (fun e => if e.1 = k then (e.1, maskedValue) else e) := by
  induction hs with
  | nil => rfl
  | cons e rest ih =>
      obtain ⟨a, b⟩ := e
      simp only [List.map_cons, List.nodup_cons, List.mem_map] at hnd
      obtain ⟨hnotin, hndrest⟩ := hnd
      have hrest : ∀ e2 ∈ rest, (e2 : String × String).1 ≠ a := by
        intro e2 he2 hcontra
        exact hnotin ⟨e2, he2, hcontra⟩
      by_cases ha : a = k
      · subst ha
        have hremove : removeKey a rest = rest := removeKey_id_of_forall_ne hrest
        have hmap : rest.map (fun e => if e.1 = a then (e.1, maskedValue) else e) = rest :=
          map_mask_id_of_forall_ne hrest
        simp [maskStepRaw, headersGetRaw, headersSetRaw, hremove, hmap]
      · by_cases hsome : (headersGetRaw k rest).isSome
        · have ihr := ih hndrest
          rw [maskStepRaw, if_pos hsome] at ihr
          simp only [maskStepRaw, headersGetRaw, ha, if_false, if_neg ha, hsome, if_pos,
            headersSetRaw, List.map_cons]
          rw [← ihr]
        · have hnone : headersGetRaw k rest = none := by
            revert hsome
            cases headersGetRaw k rest
            · intro _
              rfl
            · intro hsome
              exact absurd rfl hsome
          have hmap : rest.map (fun e => if e.1 = k then (e.1, maskedValue) else e) = rest :=
            map_mask_id_of_forall_ne (getRaw_none_forall hnone)
          simp [maskStepRaw, headersGetRaw, ha, hsome, hmap]

theorem keys_maskStepRaw_of_nodup {hs : HeaderList}
    (hnd : (hs.map Prod.fst).Nodup) (k : String) :
    (maskStepRaw k hs).map Prod.fst = hs.map Prod.fst := by
  rw [maskStepRaw_eq_map_of_nodup hnd k, List.map_map]
  apply List.map_congr_left
  intro e _
  by_cases h : e.1 = k <;> simp [h]

theorem foldl_maskStepRaw_eq_map_of_nodup {hs : HeaderList}
    (hnd : (hs.map Prod.fst).Nodup) (ks : List String) :
    ks.foldl (fun acc key => maskStepRaw key acc) hs
      = hs.map (fun e => if e.1 ∈ ks then (e.1, maskedValue) else e) := by
  induction ks generalizing hs with
  | nil => simp
  | cons k rest ih =>
      have hnd2 : ((maskStepRaw k hs).map Prod.fst).Nodup := by
        rw [keys_maskStepRaw_of_nodup hnd k]
        exact hnd
      simp only [List.foldl_cons]
      rw [ih hnd2, maskStepRaw_eq_map_of_nodup hnd k, List.map_map]
      apply List.map_congr_left
      intro e _
      by_cases hk : e.1 = k
      · by_cases hr : e.1 ∈ rest <;>
          simp [Function.comp, hk, hr, List.mem_cons]
      · by_cases hr : e.1 ∈ rest <;>
          simp [Function.comp, hk, hr, List.mem_cons]

theorem maskHeaders_eq_map_of_nodup {hs : HeaderList}
    (hnd : (hs.map Prod.fst).Nodup) (maskedNames : List String) :
    maskPrivateHeaders hs maskedNames
      = hs.map (fun e =>
          if e.1 ∈ maskedNames.map strLower then (e.1, maskedValue) else e) := by
  rw [maskPrivateHeaders_eq_raw]
  exact foldl_maskStepRaw_eq_map_of_nodup hnd _

theorem maskParams_eq_map (ps : ParamList) (maskedNames : List String) :
    maskPrivateParams ps maskedNames
      = ps.map (fun e =>
          if strLower e.1 ∈ maskedNames then (e.1, maskedValue) else e) := by
  induction ps with
  | nil => rfl
  | cons e rest ih =>
      obtain ⟨a, b⟩ := e
      by_cases h : strLower a ∈ maskedNames <;> simp [maskPrivateParams, h, ih]

/-! ## Claim C1 -/

/-- C1 is false as stated for header containers: when a masked header name
occurs twice, `_mask_private_headers` (via `MutableHeaders.__setitem__`)
keeps only the first occurrence and deletes the second, so the result does
not have the same keys in the same order as the input — here two
`token` entries collapse to one. -/
theorem c1_counterexample :
    maskPrivateHeaders [("token", "a"), ("token", "b")] ["token"]
      = [("token", maskedValue)]
    ∧ (maskPrivateHeaders [("token", "a"), ("token", "b")] ["token"]).map Prod.fst
      ≠ [("token", "a"), ("token", "b")].map Prod.fst := by
  constructor
  · decide
  · decide

/-- C1 (amended): `_mask_private_params` returns a query-parameter container
with the same keys in the same order in which every entry whose lowercased
key is (verbatim) in the masked-name set has value `MASKED` — every
occurrence of a repeated key — and every other entry is unchanged.
`_mask_private_headers` masks an entry when its stored key equals the
lowercasing of some masked name; provided no two header entries share a key,
it returns a (mutable) header container with the same keys in the same order
in which exactly those entries have value `MASKED` and all others are
unchanged.  (When a masked header key is duplicated, the duplicates collapse
to a single masked first occurrence, as the counterexample shows.) -/
theorem c1_mask_shape (ps : ParamList) (hs : HeaderList) (maskedNames : List String)
    (hnd : (hs.map Prod.fst).Nodup) :
    maskPrivateParams ps maskedNames
      = ps.map (fun e =>
          if strLower e.1 ∈ maskedNames then (e.1, maskedValue) else e)
    ∧ maskPrivateHeaders hs maskedNames
      = hs.map (fun e =>
          if e.1 ∈ maskedNames.map strLower then (e.1, maskedValue) else e) :=
  ⟨maskParams_eq_map ps maskedNames, maskHeaders_eq_map_of_nodup hnd maskedNames⟩

theorem c1_mask_shape_witness :
    (([("authorization", "z"), ("h", "w")] : HeaderList).map Prod.fst).Nodup
    ∧ (maskPrivateParams [("Token", "s"), ("x", "y")] ["token", "authorization"]
        = [("Token", "s"), ("x", "y")].map (fun e =>
            if strLower e.1 ∈ ["token", "authorization"] then (e.1, maskedValue) else e)
      ∧ maskPrivateHeaders [("authorization", "z"), ("h", "w")] ["token", "authorization"]
        = [("authorization", "z"), ("h", "w")].map (fun e =>
            if e.1 ∈ (["token", "authorization"].map strLower) then (e.1, maskedValue) else e)) :=
  ⟨by decide,
    c1_mask_shape [("Token", "s"), ("x", "y")] [("authorization", "z"), ("h", "w")]
      ["token", "authorization"] (by decide)⟩

/-! ## Claim C2 -/

/-- C2: masking is idempotent — for every masked-name set (in any iteration
order) and every query-parameter or header container, masking a masked
container changes nothing. -/
theorem c2_masking_idempotent (maskedNames : List String) (ps : ParamList) (hs : HeaderList) :
    maskPrivateParams (maskPrivateParams ps maskedNames) maskedNames
      = maskPrivateParams ps maskedNames
    ∧ maskPrivateHeaders (maskPrivateHeaders hs maskedNames) maskedNames
      = maskPrivateHeaders hs maskedNames := by
  constructor
  · induction ps with
    | nil => rfl
    | cons e rest ih =>
        obtain ⟨a, b⟩ := e
        by_cases h : strLower a ∈ maskedNames <;> simp [maskPrivateParams, h, ih]
  · rw [maskPrivateHeaders_eq_raw, maskPrivateHeaders_eq_raw]
    exact foldl_maskStepRaw_of_all_stable (maskStepRaw_all_stable _ hs)

/-! ## Claim C3 -/

/-- C3 is false as stated: the query parameter key `token` equals the
masked name `Token` ignoring case, yet `_mask_private_params` leaves it
unchanged, because the code lowercases only the container key and compares
it verbatim against the set elements. -/
theorem c3_counterexample :
    strLower "token" = strLower "Token"
    ∧ maskPrivateParams [("token", "secret")] ["Token"] = [("token", "secret")]
    ∧ ("secret" : String) ≠ maskedValue := by
  refine ⟨by decide, by decide, by decide⟩

/-- C3 (amended): matching lowercases the container key and compares it
verbatim against the set (query parameters), and lowercases the set name and
compares it verbatim against the stored key (headers).  Hence a masked name
containing an uppercase letter never matches a query parameter; but whenever
every masked name is lowercase and the header keys are stored lowercase (as
every Starlette `Headers` constructor and the ASGI spec guarantee), an entry
is masked if and only if its key equals some name of the set ignoring case —
an exact comparison, so a key that merely contains a masked name as a
substring or prefix is never masked. -/
theorem c3_case_insensitive_match (ps : ParamList) (hs : HeaderList)
    (maskedNames : List String)
    (hM : ∀ n ∈ maskedNames, strLower n = n)
    (hH : ∀ e ∈ hs, strLower (e : String × String).1 = e.1)
    (hnd : (hs.map Prod.fst).Nodup) :
    maskPrivateParams ps maskedNames
      = ps.map (fun e =>
          if ∃ n ∈ maskedNames, strLower e.1 = strLower n then (e.1, maskedValue) else e)
    ∧ maskPrivateHeaders hs maskedNames
      = hs.map (fun e =>
          if ∃ n ∈ maskedNames, strLower e.1 = strLower n then (e.1, maskedValue) else e) := by
  constructor
  · rw [maskParams_eq_map]
    apply List.map_congr_left
    intro e _
    by_cases hc : strLower e.1 ∈ maskedNames
    · rw [if_pos hc, if_pos ⟨strLower e.1, hc, by rw [hM _ hc]⟩]
    · rw [if_neg hc, if_neg ?_]
      rintro ⟨n, hn, heq⟩
      exact hc (by rw [heq, hM n hn]; exact hn)
  · rw [maskHeaders_eq_map_of_nodup hnd]
    apply List.map_congr_left
    intro e he
    by_cases hc : e.1 ∈ maskedNames.map strLower
    · obtain ⟨n, hn, hlow⟩ := List.mem_map.mp hc
      rw [if_pos hc, if_pos ⟨n, hn, by rw [hH e he, hlow]⟩]
    · rw [if_neg hc, if_neg ?_]
      rintro ⟨n, hn, heq⟩
      refine hc (List.mem_map.mpr ⟨n, hn, ?_⟩)
      rw [← heq, hH e he]

theorem c3_case_insensitive_match_witness :
    (∀ n ∈ (["token", "authorization"] : List String), strLower n = n)
    ∧ (∀ e ∈ ([("token", "v1"), ("other", "v2")] : HeaderList),
        strLower (e : String × String).1 = e.1)
    ∧ (([("token", "v1"), ("other", "v2")] : HeaderList).map Prod.fst).Nodup
    ∧ (maskPrivateParams [("TOKEN", "p1"), ("tokens", "p2")] ["token", "authorization"]
        = [("TOKEN", "p1"), ("tokens", "p2")].map (fun e =>
            if ∃ n ∈ (["token", "authorization"] : List String),
                strLower e.1 = strLower n then (e.1, maskedValue) else e)
      ∧ maskPrivateHeaders [("token", "v1"), ("other", "v2")] ["token", "authorization"]
        = [("token", "v1"), ("other", "v2")].map (fun e =>
            if ∃ n ∈ (["token", "authorization"] : List String),
                strLower e.1 = strLower n then (e.1, maskedValue) else e)) :=
  ⟨by decide, by decide, by decide,
    c3_case_insensitive_match [("TOKEN", "p1"), ("tokens", "p2")]
      [("token", "v1"), ("other", "v2")] ["token", "authorization"]
      (by decide) (by decide) (by decide)⟩

/-! ## Claim C4 -/

/-- C4: for every `RequestInfo` and `ResponseInfo`, however the fields were
supplied, the keys of `as_dict` appear exactly in the fixed emission order —
request: `type` (the constant tag the spec calls `kind`), `method`, `path`,
`query_params`, `headers`, `client_address`, `body`, `form` (so in
form-capture mode, where the body is absent and the form present, `form`
stands in place of `body`); response: `type`, `status_code`, `headers`,
`request`, `body`.  With `exclude_none` (the default) absent fields are
dropped from that order; without it every key appears. -/
theorem c4_fixed_emission_order (r : RequestInfo) (s : ResponseInfo)
    (isMaskPrivateData : Bool) (maskedNames : List String) :
    ((r.asDict isMaskPrivateData maskedNames true).map Prod.fst
        = ["type", "method", "path", "query_params", "headers"]
          ++ (if r.client_address.isSome then ["client_address"] else [])
          ++ (if r.body.isSome then ["body"] else [])
          ++ (if r.form.isSome then ["form"] else []))
    ∧ ((r.asDict isMaskPrivateData maskedNames false).map Prod.fst
        = ["type", "method", "path", "query_params", "headers",
            "client_address", "body", "form"])
    ∧ ((s.asDict isMaskPrivateData maskedNames true).map Prod.fst
        = ["type", "status_code", "headers"]
          ++ (if s.request.isSome then ["request"] else [])
          ++ (if s.body.isSome then ["body"] else []))
    ∧ ((s.asDict isMaskPrivateData maskedNames false).map Prod.fst
        = ["type", "status_code", "headers", "request", "body"]) := by
  obtain ⟨m, p, qp, hd, ca, b, f⟩ := r
  obtain ⟨sc, shd, sreq, sb⟩ := s
  rcases ca with _ | ⟨ch, cp⟩ <;> rcases b with _ | b <;> rcases f with _ | f <;>
    rcases sreq with _ | sreq <;> rcases sb with _ | sb <;>
      exact ⟨rfl, rfl, rfl, rfl⟩

/-! ## Claim C5 -/

/-- C5: a capture whose `body` is absent serializes with no `body` key at all
under `exclude_none=True`, and with a `body` key holding `None` under
`exclude_none=False`; likewise for every other optional field
(`client_address` and `form` of a request, `request` and `body` of a
response). -/
theorem c5_omit_nulls (m p : String) (qp : ParamList) (hd : HeaderList)
    (ca : Option (String × Nat)) (b : Option String)
    (f : Option (List (String × FormEntryOut)))
    (sc : Nat) (shd : HeaderList) (sreq : Option EndpointInfo) (sb : Option String)
    (isMaskPrivateData : Bool) (maskedNames : List String) :
    ((RequestInfo.mk m p qp hd ca none f).asDict isMaskPrivateData maskedNames true).lookup
        "body" = none
    ∧ ((RequestInfo.mk m p qp hd ca none f).asDict isMaskPrivateData maskedNames false).lookup
        "body" = some Value.null
    ∧ ((RequestInfo.mk m p qp hd none b f).asDict isMaskPrivateData maskedNames true).lookup
        "client_address" = none
    ∧ ((RequestInfo.mk m p qp hd none b f).asDict isMaskPrivateData maskedNames false).lookup
        "client_address" = some Value.null
    ∧ ((RequestInfo.mk m p qp hd ca b none).asDict isMaskPrivateData maskedNames true).lookup
        "form" = none
    ∧ ((RequestInfo.mk m p qp hd ca b none).asDict isMaskPrivateData maskedNames false).lookup
        "form" = some Value.null
    ∧ ((ResponseInfo.mk sc shd sreq none).asDict isMaskPrivateData maskedNames true).lookup
        "body" = none
    ∧ ((ResponseInfo.mk sc shd sreq none).asDict isMaskPrivateData maskedNames false).lookup
        "body" = some Value.null
    ∧ ((ResponseInfo.mk sc shd none sb).asDict isMaskPrivateData maskedNames true).lookup
        "request" = none
    ∧ ((ResponseInfo.mk sc shd none sb).asDict isMaskPrivateData maskedNames false).lookup
        "request" = some Value.null := by
  rcases ca with _ | ⟨ch, cp⟩ <;> rcases b with _ | b <;> rcases f with _ | f <;>
    rcases sreq with _ | sreq <;> rcases sb with _ | sb <;> cases isMaskPrivateData <;>
      exact ⟨rfl, rfl, rfl, rfl, rfl, rfl, rfl, rfl, rfl, rfl⟩

/-! ## Claim C6 -/

/-- C6 is false as stated: the captured body is not the concatenation of the
chunks but `str()` of it — `_get_response_body` ends with
`return str(response_body)` on the joined byte string, producing the
`b`-prefixed quoted Python rendering.  For the chunks `ab`, `cd` the
concatenation is `abcd` while the captured body is `abcd` wrapped in single
quotation marks after a `b` prefix, a different string. -/
theorem c6_counterexample :
    (getResponseBody (StarResponse.streaming ["ab", "cd"])).1 = some "b\x27abcd\x27"
    ∧ String.join ["ab", "cd"] = "abcd"
    ∧ ("b\x27abcd\x27" : String) ≠ "abcd" := by
  refine ⟨rfl, rfl, by decide⟩

/-- C6 (amended): for every streaming response, `_get_response_body` consumes
the whole chunk sequence, captures the Python `str()` rendering of the
concatenation of the chunks (not the bare concatenation, as the
counterexample shows), and leaves the response with a fresh iterator over
exactly the same chunk sequence, so the bytes subsequently delivered
downstream equal the bytes the response would have delivered had capture not
run. -/
theorem c6_streaming_body_transparency (chunks : List String) :
    consumeIterator chunks = chunks
    ∧ (getResponseBody (StarResponse.streaming chunks)).2 = StarResponse.streaming chunks
    ∧ (getResponseBody (StarResponse.streaming chunks)).1
        = some (pyBytesStr (String.join chunks))
    ∧ deliveredBytes (getResponseBody (StarResponse.streaming chunks)).2
        = deliveredBytes (StarResponse.streaming chunks) := by
  have hc : consumeIterator chunks = chunks := by
    induction chunks with
    | nil => rfl
    | cons c rest ih => rw [consumeIterator, ih]
  refine ⟨hc, ?_, ?_, ?_⟩ <;> simp [getResponseBody, hc, deliveredBytes]

/-! ## Claim C7 -/

/-- C7: when form capture is enabled and the request carries multipart form
data, the built capture has a `form` field listing, in submission order and
including repeated field names, a `(name, string_value)` pair for each text
field and a `(name, \x7bfile_name, headers, size\x7d)` record for each
uploaded file.  The form-capture code is absent from
src/fastapi_logging_middleware/http_exporter.py, so `captureForm` and
`convertFormField` are modelled from the spec. -/
theorem c7_form_capture (req : StarRequest) (fd : FormData) (includeBody : Bool)
    (h : req.form = some fd) :
    (RequestInfo.fromStarletteRequest req includeBody true).form = some (captureForm fd)
    ∧ captureForm fd = fd.map (fun e => (e.1, convertFormField e.2))
    ∧ (captureForm fd).map Prod.fst = fd.map Prod.fst
    ∧ (∀ s, convertFormField (FormValue.text s) = FormEntryOut.str s)
    ∧ (∀ fileName headers size,
        convertFormField (FormValue.file fileName headers size)
          = FormEntryOut.fileInfo fileName headers size) := by
  refine ⟨?_, rfl, ?_, fun s => rfl, fun a b c => rfl⟩
  · simp [RequestInfo.fromStarletteRequest, h]
  · rw [captureForm, List.map_map]
    rfl

/-- A multipart request as in the repository's form-capture test: two text
fields followed by two uploaded files under the repeated field name
`files`. -/
def formScenarioRequest : StarRequest :=
  { method := "POST"
    urlPath := "/api/v1/test-exporting/files"
    queryParams := [("param_list", "list_item1"), ("param_list", "list_item2")]
    headers := [("host", "test"), ("request-header1", "request_header_value1")]
    client := some ("testclient", 50000)
    bodyBytes := ""
    form := some
      [("param_data_name1", FormValue.text "param_data_value1"),
        ("param_data_name2", FormValue.text "param_data_value2"),
        ("files", FormValue.file "text_file_1.txt" [("content-type", "text/plain")] 807),
        ("files", FormValue.file "text_file_2.txt" [("content-type", "text/plain")] 1486)]}

theorem c7_form_capture_witness :
    formScenarioRequest.form = some
      [("param_data_name1", FormValue.text "param_data_value1"),
        ("param_data_name2", FormValue.text "param_data_value2"),
        ("files", FormValue.file "text_file_1.txt" [("content-type", "text/plain")] 807),
        ("files", FormValue.file "text_file_2.txt" [("content-type", "text/plain")] 1486)]
    ∧ ((RequestInfo.fromStarletteRequest formScenarioRequest true true).form
        = some (captureForm
            [("param_data_name1", FormValue.text "param_data_value1"),
              ("param_data_name2", FormValue.text "param_data_value2"),
              ("files", FormValue.file "text_file_1.txt" [("content-type", "text/plain")] 807),
              ("files", FormValue.file "text_file_2.txt" [("content-type", "text/plain")] 1486)])
      ∧ captureForm
            [("param_data_name1", FormValue.text "param_data_value1"),
              ("param_data_name2", FormValue.text "param_data_value2"),
              ("files", FormValue.file "text_file_1.txt" [("content-type", "text/plain")] 807),
              ("files", FormValue.file "text_file_2.txt" [("content-type", "text/plain")] 1486)]
          = [("param_data_name1", FormValue.text "param_data_value1"),
              ("param_data_name2", FormValue.text "param_data_value2"),
              ("files", FormValue.file "text_file_1.txt" [("content-type", "text/plain")] 807),
              ("files", FormValue.file "text_file_2.txt" [("content-type", "text/plain")] 1486)].map
              (fun e => (e.1, convertFormField e.2))
      ∧ (captureForm
            [("param_data_name1", FormValue.text "param_data_value1"),
              ("param_data_name2", FormValue.text "param_data_value2"),
              ("files", FormValue.file "text_file_1.txt" [("content-type", "text/plain")] 807),
              ("files", FormValue.file "text_file_2.txt" [("content-type", "text/plain")] 1486)]).map
            Prod.fst
          = [("param_data_name1", FormValue.text "param_data_value1"),
              ("param_data_name2", FormValue.text "param_data_value2"),
              ("files", FormValue.file "text_file_1.txt" [("content-type", "text/plain")] 807),
              ("files", FormValue.file "text_file_2.txt" [("content-type", "text/plain")] 1486)].map
              Prod.fst
      ∧ (∀ s, convertFormField (FormValue.text s) = FormEntryOut.str s)
      ∧ (∀ fileName headers size,
          convertFormField (FormValue.file fileName headers size)
            = FormEntryOut.fileInfo fileName headers size)) :=
  ⟨rfl,
    c7_form_capture formScenarioRequest
      [("param_data_name1", FormValue.text "param_data_value1"),
        ("param_data_name2", FormValue.text "param_data_value2"),
        ("files", FormValue.file "text_file_1.txt" [("content-type", "text/plain")] 807),
        ("files", FormValue.file "text_file_2.txt" [("content-type", "text/plain")] 1486)]
      true rfl⟩

/-! ## Claim C8 -/

theorem runRequestPhaseAux_all_ok (i : Nat) (hs : List Handler)
    (h : ∀ x ∈ hs, (x : Handler).reqOk = true) :
    runRequestPhaseAux i hs
      = ((List.range hs.length).map (fun j => (i + j, Phase.request)), true) := by
  induction hs generalizing i with
  | nil => rfl
  | cons h1 rest ih =>
      have hok : h1.reqOk = true := h h1 (List.mem_cons_self _ _)
      have hrest := ih (i + 1) (fun x hx => h x (List.mem_cons_of_mem _ hx))
      rw [runRequestPhaseAux, if_pos hok, hrest]
      simp [List.range_succ_eq_map, List.map_map, Function.comp, Nat.add_assoc,
        Nat.add_comm 1]

/-- C8 is false as stated: with two sinks where the first raises on every
capture call, the second sink receives neither the request-phase nor the
response-phase capture (the raising dependency aborts the request before
the remaining dependencies and the endpoint run), and the client receives
an error instead of the endpoint response. -/
theorem c8_counterexample :
    runPipeline [⟨false, false⟩, ⟨true, true⟩] "payload"
      = (ClientResult.serverError, [(0, Phase.request)])
    ∧ (1, Phase.request) ∉ (runPipeline [⟨false, false⟩, ⟨true, true⟩] "payload").2
    ∧ (1, Phase.response) ∉ (runPipeline [⟨false, false⟩, ⟨true, true⟩] "payload").2
    ∧ (runPipeline [⟨false, false⟩, ⟨true, true⟩] "payload").1
        ≠ ClientResult.ok "payload" := by
  refine ⟨rfl, by decide, by decide, by decide⟩

/-- C8 (amended): sink isolation holds in the response phase only.  Whenever
every sink's request-phase capture succeeds, the client receives the
endpoint response unchanged and every sink — regardless of any sink raising
during response capture — receives both the request-phase and the
response-phase capture; the response-phase failures are collected by
`asyncio.gather(..., return_exceptions=True)` and suppressed.  A sink that
raises during the request phase instead aborts the request before later
sinks and the endpoint run, as the counterexample shows. -/
theorem c8_response_isolation (hs : List Handler) (resp : String)
    (hreq : ∀ h ∈ hs, (h : Handler).reqOk = true) :
    (runPipeline hs resp).1 = ClientResult.ok resp
    ∧ (∀ i, i < hs.length → (i, Phase.request) ∈ (runPipeline hs resp).2)
    ∧ (∀ i, i < hs.length → (i, Phase.response) ∈ (runPipeline hs resp).2)
    ∧ (handleResponse hs).2 = hs.map Handler.respOk := by
  have haux := runRequestPhaseAux_all_ok 0 hs hreq
  have hpipe : runPipeline hs resp
      = (ClientResult.ok resp,
          (List.range hs.length).map (fun j => (j, Phase.request))
            ++ (List.range hs.length).map (fun j => (j, Phase.response))) := by
    simp [runPipeline, haux, handleResponse]
  refine ⟨by rw [hpipe], ?_, ?_, rfl⟩
  · intro i hi
    rw [hpipe]
    exact List.mem_append_left _ (List.mem_map.mpr ⟨i, List.mem_range.mpr hi, rfl⟩)
  · intro i hi
    rw [hpipe]
    exact List.mem_append_right _ (List.mem_map.mpr ⟨i, List.mem_range.mpr hi, rfl⟩)

theorem c8_response_isolation_witness :
    (∀ h ∈ ([⟨true, true⟩, ⟨true, false⟩] : List Handler), (h : Handler).reqOk = true)
    ∧ ((runPipeline [⟨true, true⟩, ⟨true, false⟩] "payload").1 = ClientResult.ok "payload"
      ∧ (∀ i, i < ([⟨true, true⟩, ⟨true, false⟩] : List Handler).length →
          (i, Phase.request) ∈ (runPipeline [⟨true, true⟩, ⟨true, false⟩] "payload").2)
      ∧ (∀ i, i < ([⟨true, true⟩, ⟨true, false⟩] : List Handler).length →
          (i, Phase.response) ∈ (runPipeline [⟨true, true⟩, ⟨true, false⟩] "payload").2)
      ∧ (handleResponse [⟨true, true⟩, ⟨true, false⟩]).2
          = ([⟨true, true⟩, ⟨true, false⟩] : List Handler).map Handler.respOk) :=
  ⟨by decide, c8_response_isolation [⟨true, true⟩, ⟨true, false⟩] "payload" (by decide)⟩

/-! ## Claim C9 -/

/-- The end-to-end scenario request of the spec (and of the repository's
exporting test): a POST to /api/v1/test-exporting with a JSON body, a
repeated query parameter and a custom header, issued by the test client. -/
def scenarioRequest : StarRequest :=
  { method := "POST"
    urlPath := "/api/v1/test-exporting"
    queryParams := [("param_list", "list_item1"), ("param_list", "list_item2")]
    headers := [("host", "test"), ("accept", "*/*"),
        ("request-header1", "request_header_value1")]
    client := some ("testclient", 50000)
    bodyBytes := "\x7b\"request_body\": \"ok\"\x7d"
    form := none }

/-- C9 is false as stated: the captured body is the Python `str()` rendering
of the raw byte string — the JSON text wrapped in single quotation marks
after a `b` prefix — not the bare JSON text the claim gives. -/
theorem c9_counterexample :
    ((RequestInfo.fromStarletteRequest scenarioRequest true false).asDict
        true defaultMaskedNames true).lookup "body"
      = some (Value.str "b\x27\x7b\"request_body\": \"ok\"\x7d\x27")
    ∧ ("b\x27\x7b\"request_body\": \"ok\"\x7d\x27" : String)
        ≠ "\x7b\"request_body\": \"ok\"\x7d" := by
  refine ⟨rfl, by decide⟩

/-- C9 (amended): for the scenario request captured with body capture
enabled, `as_dict` is exactly the expected mapping in the exact key order —
method `POST`, path `/api/v1/test-exporting`, the query string
`param_list=list_item1&param_list=list_item2`, a headers mapping containing
`request-header1`, the test client address, and as body the Python textual
form of the byte string (`b`-prefixed and quoted), which is what the code
and the repository's own test produce. -/
theorem c9_request_capture :
    ((RequestInfo.fromStarletteRequest scenarioRequest true false).asDict
        true defaultMaskedNames true)
      = [("type", Value.str "Request"),
          ("method", Value.str "POST"),
          ("path", Value.str "/api/v1/test-exporting"),
          ("query_params", Value.str "param_list=list_item1&param_list=list_item2"),
          ("headers", Value.dict [("host", Value.str "test"), ("accept", Value.str "*/*"),
              ("request-header1", Value.str "request_header_value1")]),
          ("client_address", Value.dict [("host", Value.str "testclient"),
              ("port", Value.nat 50000)]),
          ("body", Value.str "b\x27\x7b\"request_body\": \"ok\"\x7d\x27")]
    ∧ ((RequestInfo.fromStarletteRequest scenarioRequest true false).asDict
          true defaultMaskedNames true).map Prod.fst
        = ["type", "method", "path", "query_params", "headers", "client_address", "body"]
    ∧ ("request-header1", Value.str "request_header_value1")
        ∈ [("host", Value.str "test"), ("accept", Value.str "*/*"),
            ("request-header1", Value.str "request_header_value1")] :=
  ⟨rfl, rfl, List.mem_cons_of_mem _ (List.mem_cons_of_mem _ (List.mem_cons_self _ _))⟩

/-! ## Claim C10 -/

/-- C10: `LoggingMiddleware.__init__` installs exactly one default logging
handler when called with `None` or with an empty handler sequence, keeps any
non-empty sequence as supplied, and therefore can never be configured with
zero sinks. -/
theorem c10_default_handler_installed :
    loggingMiddlewareInit none = [HandlerSpec.defaultLogging]
    ∧ loggingMiddlewareInit (some []) = [HandlerSpec.defaultLogging]
    ∧ (∀ o, loggingMiddlewareInit o ≠ [])
    ∧ (∀ h t, loggingMiddlewareInit (some (h :: t)) = h :: t) := by
  refine ⟨rfl, rfl, ?_, fun h t => rfl⟩
  intro o
  cases o with
  | none => simp [loggingMiddlewareInit]
  | some l => cases l <;> simp [loggingMiddlewareInit]

end FLM
